import Mathlib

/-!
Verification of the js-vanilla-node rendering engine against its
natural-language specification.

Each section shallowly embeds one subsystem of the repository:

* `Cache`     — `src/server/utils/cache.js` (ISR render cache, disk variant)
  over a disk store modelled from the spec (the disk helpers of
  `files.js` are declared but their bodies are not in `src/`).
* `Reactive`  — `src/.app/client/services/reactive.js` (cells, effects,
  dependency tracking, synchronous notification).
* `Template`  — `src/server/utils/template.js` (server renderer:
  `processNode`, conditional chains, `v-for`, interpolation) and the
  conditional-chain / `v-for` logic of
  `src/.app/client/services/html.js`.
* `Streaming` — the streaming phase of `renderAndSendPage`
  (`src/server/router.js` and the variant in `src/unnamed/part_021`)
  together with `generateReplacementContent` of
  `src/server/utils/streaming.js`.

Machine integers are modelled as `Int` (the values involved are exact
integers); JS dynamic values as a small inductive `JSVal`.
-/

namespace Cache

/-- A JS number: a finite value, an infinity, or `NaN`.  Finite values
are modelled as exact rationals; JS rounds a decimal literal to the
nearest double, but `getRevalidateSeconds` only passes the value
through unchanged, so the rounding is never observable here. -/
inductive JSNum where
  | finite (q : ℚ)
  | inf (pos : Bool)
  | nan
  deriving DecidableEq, Repr

/-- JS dynamic value, restricted to the shapes `getRevalidateSeconds`
inspects (`typeof` number / string / boolean, `null`, `undefined`, and
a catch-all object). -/
inductive JSVal where
  | num (n : JSNum)
  | str (s : String)
  | jbool (b : Bool)
  | jsnull
  | undef
  | obj
  deriving DecidableEq, Repr

def isHexDigitCh (c : Char) : Bool :=
  c.isDigit || ('a' ≤ c && c ≤ 'f') || ('A' ≤ c && c ≤ 'F')

def hexDigitVal (c : Char) : Nat :=
  if c.isDigit then c.toNat - 48
  else if 'a' ≤ c && c ≤ 'f' then c.toNat - 87
  else c.toNat - 55

/-- Value of a digit string in the given base. -/
def baseDigitsVal (base : Nat) (cs : List Char) : Nat :=
  cs.foldl (fun a c => a * base + hexDigitVal c) 0

/-- Splits a decimal literal at its first exponent marker `e`/`E`. -/
def splitExpChars (cs : List Char) : List Char × Option (List Char) :=
  match cs.span (fun c => !(c = 'e' || c = 'E')) with
  | (m, []) => (m, none)
  | (m, _ :: ex) => (m, some ex)

/-- An unsigned decimal mantissa: `digits`, `digits.digits?` or
`.digits` (at least one digit overall). -/
def parseDecMantissa (cs : List Char) : Option ℚ :=
  let (ip, rest) := cs.span Char.isDigit
  match rest with
  | [] => if ip.isEmpty then none else some ((baseDigitsVal 10 ip : ℚ))
  | '.' :: fp =>
      if fp.all Char.isDigit && !(ip.isEmpty && fp.isEmpty) then
        some ((baseDigitsVal 10 ip : ℚ) +
          (baseDigitsVal 10 fp : ℚ) / ((10 : ℚ) ^ fp.length))
      else none
  | _ => none

/-- An exponent: optional sign, then at least one digit. -/
def parseExpChars (cs : List Char) : Option Int :=
  match cs with
  | '+' :: ds =>
      if !ds.isEmpty && ds.all Char.isDigit then
        some ((baseDigitsVal 10 ds : Int))
      else none
  | '-' :: ds =>
      if !ds.isEmpty && ds.all Char.isDigit then
        some (-(baseDigitsVal 10 ds : Int))
      else none
  | ds =>
      if !ds.isEmpty && ds.all Char.isDigit then
        some ((baseDigitsVal 10 ds : Int))
      else none

/-- An unsigned decimal literal with optional exponent. -/
def parseDecChars (cs : List Char) : Option ℚ :=
  let (m, eopt) := splitExpChars cs
  match parseDecMantissa m, eopt with
  | some q, none => some q
  | some q, some ex => (parseExpChars ex).map (fun e => q * (10 : ℚ) ^ e)
  | none, _ => none

/-- Model of JS `Number(s)` on strings (the string-to-number grammar):
surrounding whitespace is ignored, the empty/blank string is 0, an
unsigned `0x`/`0o`/`0b` literal is parsed in its base, and otherwise an
optional sign precedes `Infinity` or a decimal literal with optional
fraction and exponent.  Every other string is `NaN`, which the `none`
result stands for (the caller tests `!Number.isNaN(Number(s))`). -/
def jsStringToNumber (s : String) : Option JSNum :=
  let cs := s.data.dropWhile Char.isWhitespace
  let cs := (cs.reverse.dropWhile Char.isWhitespace).reverse
  match cs with
  | [] => some (.finite 0)
  | '0' :: 'x' :: rest | '0' :: 'X' :: rest =>
      if !rest.isEmpty && rest.all isHexDigitCh then
        some (.finite ((baseDigitsVal 16 rest : ℚ)))
      else none
  | '0' :: 'o' :: rest | '0' :: 'O' :: rest =>
      if !rest.isEmpty && rest.all (fun c => '0' ≤ c && c ≤ '7') then
        some (.finite ((baseDigitsVal 8 rest : ℚ)))
      else none
  | '0' :: 'b' :: rest | '0' :: 'B' :: rest =>
      if !rest.isEmpty && rest.all (fun c => c = '0' || c = '1') then
        some (.finite ((baseDigitsVal 2 rest : ℚ)))
      else none
  | _ =>
      let (pos, body) :=
        match cs with
        | '+' :: r => (true, r)
        | '-' :: r => (false, r)
        | r => (true, r)
      if body = "Infinity".data then some (.inf pos)
      else
        (parseDecChars body).map (fun q =>
          .finite (if pos then q else -q))

/-- Embedding of `getRevalidateSeconds` (src/server/utils/cache.js
lines 135–147): numbers pass through unchanged, strings that `Number()`
parses to a non-`NaN` number are converted to that number, `true` gives
60, `false` and `"never"` give -1, everything else 0.  The branch order
follows the source: `typeof number`, then
`typeof string && !Number.isNaN(Number(s))`, then `=== true`, then
`=== 'never' || === false`, else 0. -/
def getRevalidateSeconds : JSVal → JSNum
  | .num n => n
  | .str s =>
      match jsStringToNumber s with
      | some n => n
      | none => if s = "never" then .finite (-1) else .finite 0
  | .jbool true => .finite 60
  | .jbool false => .finite (-1)
  | .jsnull => .finite 0
  | .undef => .finite 0
  | .obj => .finite 0

/-- One on-disk cache entry: rendered markup, generation timestamp
(milliseconds), and the manual-stale flag. -/
structure DiskEntry where
  html : String
  generatedAt : Int
  isStale : Bool
  deriving DecidableEq, Repr

/-- The disk store: an association list from component path to entry. -/
def DiskStore := List (String × DiskEntry)

instance : DecidableEq DiskStore := by
  unfold DiskStore; infer_instance

/-- Modelled from the spec: `getComponentHtmlDisk` of `files.js` (body
not in `src/`); reads back the entry stored for a key, or nothing. -/
def getComponentHtmlDisk (store : DiskStore) (componentPath : String) :
    Option DiskEntry :=
  (store.find? (fun p => p.1 = componentPath)).map Prod.snd

/-- Modelled from the spec: `saveComponentHtmlDisk` of `files.js` (body
not in `src/`); per the readme, saving stores the markup with metadata
`{ generatedAt: Date.now(), isStale: false }`, overwriting any previous
entry.  `now` stands for `Date.now()`. -/
def saveComponentHtmlDisk (store : DiskStore) (componentPath html : String)
    (now : Int) : DiskStore :=
  (componentPath, ⟨html, now, false⟩) ::
    store.filter (fun p => ¬ p.1 = componentPath)

/-- Modelled from the spec: `markComponentHtmlStale` of `files.js` (body
not in `src/`); sets the manual-stale flag without touching the stored
markup or timestamp. -/
def markComponentHtmlStale (store : DiskStore) (componentPath : String) :
    DiskStore :=
  store.map (fun p =>
    if p.1 = componentPath then (p.1, { p.2 with isStale := true }) else p)

/-- Embedding of the disk-variant `getCachedComponentHtml`
(src/server/utils/cache.js lines 78–93): a missing entry (or falsy
markup, since the source tests `if (!html)`) yields no markup;
otherwise staleness is time-based unless `revalidateSeconds = -1`,
or-ed with the manual-stale flag. -/
def getCachedComponentHtml (store : DiskStore) (componentPath : String)
    (revalidateSeconds : Int) (now : Int) : Option String × Bool :=
  match getComponentHtmlDisk store componentPath with
  | none => (none, false)
  | some entry =>
      if entry.html = "" then (none, false)
      else
        let staleByTime :=
          if revalidateSeconds ≠ -1 then
            decide (now - entry.generatedAt > revalidateSeconds * 1000)
          else false
        (some entry.html, entry.isStale || staleByTime)

/-- Embedding of the disk-variant `saveCachedComponentHtml`
(src/server/utils/cache.js lines 108–110). -/
def saveCachedComponentHtml (store : DiskStore) (componentPath html : String)
    (now : Int) : DiskStore :=
  saveComponentHtmlDisk store componentPath html now

/-- Embedding of `revalidateCachedComponentHtml`
(src/server/utils/cache.js lines 121–123). -/
def revalidateCachedComponentHtml (store : DiskStore)
    (componentPath : String) : DiskStore :=
  markComponentHtmlStale store componentPath

end Cache

namespace Reactive

/-! Embedding of `src/.app/client/services/reactive.js`.

Cells are identified by `CellId`, property names by `Key` (property
strings mapped to numbers; the boxed-primitive property `"value"` is
`valueKey = 0`).  Effects are identified by `EffId`.  An effect body is
modelled as the sequence of tracked operations it performs — reads
through the proxy `get` trap, and creation of a nested effect (which
runs immediately, as `effect` does) — as a function of the current
store, since a JS closure chooses its reads from the values it sees.
Property values are modelled as `Int`. -/

abbrev CellId := Nat
abbrev Key := Nat
abbrev EffId := Nat
abbrev CKey := CellId × Key

/-- The canonical key used for boxed primitives (`"value"`). -/
def valueKey : Key := 0

/-- One tracked operation of an effect body: a proxy-tracked property
read, or the creation (and immediate first run) of a nested effect
whose own body performs the given reads. -/
inductive Act where
  | read (c : CellId) (k : Key)
  | nest (inner : EffId) (body : List CKey)
  deriving DecidableEq, Repr

def Act.isRead : Act → Bool
  | .read _ _ => true
  | .nest _ _ => false

/-- A reactive system: which cells were created from primitives (so all
property access canonicalizes to `"value"`, per `adaptPrimitiveValue`
and the `__isPrimitive` key rewrite in both traps), and each effect's
body. -/
structure System where
  prim : CellId → Bool
  body : EffId → (CellId → Key → Int) → List Act

/-- `target.__isPrimitive ? "value" : prop` — the key rewrite performed
by both the `get` and `set` traps. -/
def canonKey (sys : System) (c : CellId) (k : Key) : Key :=
  if sys.prim c then valueKey else k

/-- Global state of the reactive module: property values, the per-cell
`depsMap` (subscriber sets in insertion order, as JS `Set` iterates),
the `effect.deps` bookkeeping arrays, the module-global `activeEffect`,
and an instrumentation counter of completed body runs per effect. -/
structure RState where
  store : CellId → Key → Int
  subs : List (CKey × List EffId)
  deps : List (EffId × List CKey)
  active : Option EffId
  runs : EffId → Nat

def initState : RState :=
  { store := fun _ _ => 0, subs := [], deps := [], active := none,
    runs := fun _ => 0 }

/-- The subscriber set of one `(cell, property)` pair, in insertion
order (`depsMap` keys are unique, so first match is the match). -/
def subsOf (subs : List (CKey × List EffId)) (ck : CKey) : List EffId :=
  match subs with
  | [] => []
  | p :: rest => if p.1 = ck then p.2 else subsOf rest ck

/-- `depsMap.get(key).add(activeEffect)` (creating the `Set` first if
absent): appends the effect to the pair's subscriber list unless
already present. -/
def addSub (subs : List (CKey × List EffId)) (ck : CKey) (e : EffId) :
    List (CKey × List EffId) :=
  match subs with
  | [] => [(ck, [e])]
  | p :: rest =>
      if p.1 = ck then (p.1, if e ∈ p.2 then p.2 else p.2 ++ [e]) :: rest
      else p :: addSub rest ck e

/-- `activeEffect.deps.push(depSet)`: records the pair on the effect for
later cleanup (duplicates allowed, as in the source). -/
def pushDep (deps : List (EffId × List CKey)) (e : EffId) (ck : CKey) :
    List (EffId × List CKey) :=
  match deps with
  | [] => [(e, [ck])]
  | p :: rest =>
      if p.1 = e then (p.1, p.2 ++ [ck]) :: rest
      else p :: pushDep rest e ck

/-- The proxy `get` trap (reactive.js lines 89–110): if a computation is
running, register it as a subscriber of the (canonicalized) pair and
record the pair on the computation. -/
def getTrap (sys : System) (s : RState) (c : CellId) (k : Key) : RState :=
  match s.active with
  | none => s
  | some e =>
      let ck : CKey := (c, canonKey sys c k)
      { s with subs := addSub s.subs ck e, deps := pushDep s.deps e ck }

def bump (runs : EffId → Nat) (e : EffId) : EffId → Nat :=
  fun f => if f = e then runs f + 1 else runs f

/-- Run of a nested effect created inside another body: the wrapper sets
`activeEffect` to itself, performs the reads, then sets `activeEffect`
to `null` (reactive.js lines 146–150 — it does not restore the previous
value). -/
def runInner (sys : System) (e : EffId) (body : List CKey) (s : RState) :
    RState :=
  let s1 := { s with active := some e }
  let s2 := body.foldl (fun st ck => getTrap sys st ck.1 ck.2) s1
  { s2 with active := none, runs := bump s2.runs e }

def execAct (sys : System) (s : RState) : Act → RState
  | .read c k => getTrap sys s c k
  | .nest e body => runInner sys e body s

/-- One run of an effect's wrapper (reactive.js lines 146–150):
`activeEffect = wrapped; fn(); activeEffect = null`. -/
def runEffect (sys : System) (e : EffId) (s : RState) : RState :=
  let s1 := { s with active := some e }
  let s2 := (sys.body e s1.store).foldl (execAct sys) s1
  { s2 with active := none, runs := bump s2.runs e }

/-- `effect(fn)` runs the wrapper once immediately. -/
def effectInit (sys : System) (e : EffId) (s : RState) : RState :=
  runEffect sys e s

/-- The synchronous notification loop of the `set` trap:
`depsMap.get(key).forEach((effect) => effect())`, over the subscriber
set as it stands when the write happens. -/
def notify (sys : System) (s : RState) (es : List EffId) : RState :=
  es.foldl (fun st e => runEffect sys e st) s

def updateStore (store : CellId → Key → Int) (c : CellId) (k : Key)
    (v : Int) : CellId → Key → Int :=
  fun c2 k2 => if c2 = c ∧ k2 = k then v else store c2 k2

/-- The proxy `set` trap (reactive.js lines 111–121): write the value
under the canonicalized key, then synchronously invoke every subscriber
of that pair — no batching, no deduplication. -/
def setProp (sys : System) (s : RState) (c : CellId) (k : Key) (v : Int) :
    RState :=
  let key := canonKey sys c k
  let s1 := { s with store := updateStore s.store c key v }
  notify sys s1 (subsOf s1.subs (c, key))

/-- The disposer returned by `effect`:
`wrapped.deps.forEach((depSet) => depSet.delete(wrapped))`. -/
def dispose (s : RState) (e : EffId) : RState :=
  let cks :=
    match s.deps.find? (fun p => p.1 = e) with
    | some p => p.2
    | none => []
  { s with subs := s.subs.map (fun p =>
      if p.1 ∈ cks then (p.1, p.2.filter (fun f => ¬ f = e)) else p) }

/-- An effect body that performs only tracked reads (no nested-effect
creation and, as everywhere in this model, no writes). -/
def ReadOnlyBody (sys : System) (e : EffId) : Prop :=
  ∀ st, ∀ a ∈ sys.body e st, a.isRead = true

/-- The system of the spec's counter scenario: one boxed-primitive cell
(id 0, initial value 0 in `initState`), one effect (id 0) whose body
reads `counter.value`. -/
def sysCounter : System :=
  { prim := fun _ => true,
    body := fun e _ => if e = 0 then [Act.read 0 valueKey] else [] }

def counterAfterInit : RState := effectInit sysCounter 0 initState

def counterAfterTwoWrites : RState :=
  setProp sysCounter (setProp sysCounter counterAfterInit 0 valueKey 1)
    0 valueKey 2

/-- A system whose single effect (id 0) reads property 3 (`sel`) of cell
0 and then, depending on the value of `sel`, property 1 (`a`) or
property 2 (`b`).  Used to exercise re-runs whose read set changes. -/
def sysSwitch : System :=
  { prim := fun _ => false,
    body := fun e st =>
      if e = 0 then
        if st 0 3 = 0 then [Act.read 0 3, Act.read 0 1]
        else [Act.read 0 3, Act.read 0 2]
      else [] }

def switchAfterInit : RState := effectInit sysSwitch 0 initState

/-- Writing `sel := 1` triggers a re-run of effect 0, which this time
reads properties 3 and 2 but not 1. -/
def switchAfterWrite : RState := setProp sysSwitch switchAfterInit 0 3 1

/-- A system whose outer effect (id 0) first creates and runs a nested
effect (id 1, reading property 7 of cell 0) and then itself reads
property 5 of cell 0. -/
def sysNested : System :=
  { prim := fun _ => false,
    body := fun e _ =>
      if e = 0 then [Act.nest 1 [(0, 7)], Act.read 0 5] else [] }

def nestedAfterInit : RState := effectInit sysNested 0 initState

end Reactive

namespace Template

/-! Embedding of the server renderer `src/server/utils/template.js`
(`processNode`, `compileTemplateToHTML`) and of the client
conditional-chain / `v-for` logic of
`src/.app/client/services/html.js`. -/

/-- A value produced by the expression evaluator, restricted to the
shapes the directives inspect (booleans, numbers, strings, arrays,
null).  The source evaluates expressions by building a `Function` from
the expression string; the evaluator is therefore a parameter
(`Eval`) of the renderer here, and concrete instances below interpret
exactly the expression strings used by the examples. -/
inductive Val where
  | vbool (b : Bool)
  | vnum (n : Int)
  | vstr (s : String)
  | varr (l : List Val)
  | vnull

/-- `String.trim` on the character list (strip leading and trailing
whitespace). -/
def trimChars (cs : List Char) : List Char :=
  ((cs.dropWhile Char.isWhitespace).reverse.dropWhile
    Char.isWhitespace).reverse

def digitChar (n : Nat) : Char := Char.ofNat (48 + n)

/-- Decimal digits of a natural number (the first argument is fuel,
always called with fuel > n so it never runs out). -/
def natToCharsAux : Nat → Nat → List Char
  | 0, _ => []
  | fuel + 1, n =>
      if n < 10 then [digitChar n]
      else natToCharsAux fuel (n / 10) ++ [digitChar (n % 10)]

/-- Decimal rendering of an integer (JS number-to-string on
integers). -/
def intToString (n : Int) : String :=
  match n with
  | .ofNat m => String.mk (natToCharsAux (m + 1) m)
  | .negSucc m => String.mk ('-' :: natToCharsAux (m + 2) (m + 1))

def isPrefixList : List Char → List Char → Bool
  | [], _ => true
  | _ :: _, [] => false
  | p :: ps, c :: cs => p = c && isPrefixList ps cs

/-- `s.startsWith pre`. -/
def strStartsWith (s pre : String) : Bool := isPrefixList pre.data s.data

/-- JS truthiness of an evaluated value. -/
def truthy : Val → Bool
  | .vbool b => b
  | .vnum n => decide (¬ n = 0)
  | .vstr s => decide (¬ s = "")
  | .varr _ => true
  | .vnull => false

mutual
/-- JS string coercion of an evaluated value (as applied when splicing
into text or attributes). -/
def valToString : Val → String
  | .vbool true => "true"
  | .vbool false => "false"
  | .vnum n => intToString n
  | .vstr s => s
  | .varr l => valsToString l
  | .vnull => "null"
/-- Array-to-string: elements joined with commas; `null` elements
become empty, per `Array.prototype.toString`. -/
def valsToString : List Val → String
  | [] => ""
  | [v] => match v with | .vnull => "" | _ => valToString v
  | v :: rest =>
      (match v with | .vnull => "" | _ => valToString v) ++ "," ++
        valsToString rest
end

/-- A plain data scope (the `scope` object), later bindings
shadowing earlier ones. -/
abbrev Scope := List (String × Val)

def lookupScope : Scope → String → Option Val
  | [], _ => none
  | (k, v) :: rest, x => if k = x then some v else lookupScope rest x

/-- `{ ...scope, [itemName]: item }`. -/
def scopeSet (scope : Scope) (x : String) (v : Val) : Scope :=
  (x, v) :: scope

/-- The expression evaluator: the source's `evaluate` builds and runs a
`Function` over the scope and maps any thrown error to `""`; it is a
parameter of the embedding (total, errors already mapped to a falsy
value by the instance). -/
abbrev Eval := String → Scope → Val

/-- Parsed node of the server renderer (htmlparser2 `text` and `tag`
nodes; other node kinds do not occur in the fragments under
study). -/
inductive SNode where
  | text (d : String)
  | elem (tag : String) (attrs : List (String × String)) (children : List SNode)

mutual
def nodeBeq : SNode → SNode → Bool
  | .text d, .text d2 => d = d2
  | .elem t a ch, .elem t2 a2 ch2 => t = t2 && a = a2 && nodesBeq ch ch2
  | _, _ => false
def nodesBeq : List SNode → List SNode → Bool
  | [], [] => true
  | n :: ns, m :: ms => nodeBeq n m && nodesBeq ns ms
  | _, _ => false
end

/-- Attribute lookup (`attrs[name]` / `"name" in attrs`). -/
def getAttr (attrs : List (String × String)) (k : String) : Option String :=
  match attrs with
  | [] => none
  | p :: rest => if p.1 = k then some p.2 else getAttr rest k

/-- `delete attrs[name]` (attribute keys are unique). -/
def removeAttr (attrs : List (String × String)) (k : String) :
    List (String × String) :=
  attrs.filter (fun p => ¬ p.1 = k)

/-- `attrs[name] = v`: updates in place if present, else appends (JS
object key-insertion order). -/
def setAttr (attrs : List (String × String)) (k v : String) :
    List (String × String) :=
  if attrs.any (fun p => p.1 = k) then
    attrs.map (fun p => if p.1 = k then (p.1, v) else p)
  else attrs ++ [(k, v)]

/-- `isEmptyTextNode`: a text node matching `/^\s*$/`. -/
def isEmptyText : SNode → Bool
  | .text d => d.data.all (fun c => c.isWhitespace)
  | .elem _ _ _ => false

/-- Finds the earliest closing `\x7d\x7d` in the character stream,
returning the enclosed characters and the remainder (the lazy `(.+?)`
of the interpolation regex). -/
def splitAtClose : List Char → Option (List Char × List Char)
  | [] => none
  | '}' :: '}' :: rest => some ([], rest)
  | c :: rest => (splitAtClose rest).map (fun p => (c :: p.1, p.2))

/-- One pass of `data.replace(/\x7b\x7b(.+?)\x7d\x7d/g, ...)` over the
character stream.  The fuel argument (initialized to the stream length,
which every step strictly decreases) only makes the recursion
structural; it never runs out. -/
def interpChars (ev : Eval) (scope : Scope) : Nat → List Char → List Char
  | 0, l => l
  | _ + 1, [] => []
  | fuel + 1, '{' :: '{' :: rest =>
      (match splitAtClose rest with
      | some (inner, after) =>
          if inner = [] then '{' :: interpChars ev scope fuel ('{' :: rest)
          else
            (valToString (ev (String.mk (trimChars inner)) scope)).data ++
              interpChars ev scope fuel after
      | none => '{' :: interpChars ev scope fuel ('{' :: rest))
  | fuel + 1, c :: rest => c :: interpChars ev scope fuel rest

/-- Text interpolation: replaces each `\x7b\x7bexpr\x7d\x7d` with the
evaluated, stringified expression. -/
def interpolate (ev : Eval) (scope : Scope) (s : String) : String :=
  String.mk (interpChars ev scope s.data.length s.data)

/-- The `/(.+?)\s+in\s+(.+)/` parse of a `v-for` expression, modelled
for single-space separators: splits at the first ` in ` occurrence. -/
def splitOnIn : List Char → Option (List Char × List Char)
  | [] => none
  | ' ' :: 'i' :: 'n' :: ' ' :: rest => some ([], rest)
  | c :: rest => (splitOnIn rest).map (fun p => (c :: p.1, p.2))

def vForParse (s : String) : Option (String × String) :=
  match splitOnIn s.data with
  | none => none
  | some (pre, post) =>
      if pre = [] ∨ post = [] then none
      else some (String.mk (trimChars pre), String.mk (trimChars post))

/-- One step of the `:prop` / `v-bind:prop` pass: assign the evaluated
value under the real name, then delete the directive attribute. -/
def bindStep (ev : Eval) (scope : Scope) (ats : List (String × String))
    (nv : String × String) : List (String × String) :=
  if strStartsWith nv.1 ":" then
    removeAttr
      (setAttr ats (String.mk (nv.1.data.drop 1))
        (valToString (ev nv.2 scope))) nv.1
  else if strStartsWith nv.1 "v-bind:" then
    removeAttr
      (setAttr ats (String.mk (nv.1.data.drop 7))
        (valToString (ev nv.2 scope))) nv.1
  else ats

/-- The `:prop` / `v-bind:prop` pass: iterates over a snapshot of the
attributes while updating them. -/
def bindPass (ev : Eval) (scope : Scope) (ats : List (String × String)) :
    List (String × String) :=
  ats.foldl (bindStep ev scope) ats

/-- The `@event` / `v-on:event` pass: these attributes are deleted on
the server. -/
def stripEvents (ats : List (String × String)) : List (String × String) :=
  ats.filter (fun p =>
    ¬ (strStartsWith p.1 "@" || strStartsWith p.1 "v-on:"))

mutual
/-- Embedding of `processNode` (src/server/utils/template.js lines
19–134).  A JS return of `null` is the empty list, a single node a
singleton, the `v-for` clone array a longer list.  The directive
cascade follows the source order: `v-if`, `v-else-if`, `v-else`,
`v-show`, `v-for`, then bindings, event stripping and child
processing.  The recursive `processNode(cloned, newScope)` call on a
`v-for` clone is unfolded into `finish`: by that point the clone
carries none of the five structural directives (all were deleted
before cloning), so only the binding passes and child processing
remain; each clone is an independent value (`structuredClone`'s deep
copy), a function of the original subtree, the extended scope and the
item alone. -/
def processNode (ev : Eval) (scope : Scope) (previousRendered : Bool) :
    SNode → List SNode
  | .text d => [.text (interpolate ev scope d)]
  | .elem tag attrs ch =>
      let finish := fun (sc : Scope) (ats : List (String × String)) =>
        [SNode.elem tag (stripEvents (bindPass ev sc ats))
          (processChildren ev sc false ch)]
      let afterFor := fun (ats : List (String × String)) =>
        match getAttr ats "v-for" with
        | none => finish scope ats
        | some vfor =>
            let ats1 := removeAttr ats "v-for"
            match vForParse vfor with
            | none => []
            | some (itemName, listExpr) =>
                match ev listExpr scope with
                | .varr items =>
                    (items.map (fun it =>
                      finish (scopeSet scope itemName it) ats1)).flatten
                | _ => []
      let afterShow := fun (ats : List (String × String)) =>
        match getAttr ats "v-show" with
        | none => afterFor ats
        | some cond =>
            let ats1 := removeAttr ats "v-show"
            if truthy (ev cond scope) then afterFor ats1
            else
              afterFor (setAttr ats1 "style"
                ((match getAttr ats1 "style" with
                  | some st => st
                  | none => "") ++ "display:none;"))
      match getAttr attrs "v-if" with
      | some cond =>
          if truthy (ev cond scope) then
            stepElse ev scope previousRendered afterShow
              (removeAttr attrs "v-if")
          else []
      | none => stepElse ev scope previousRendered afterShow attrs

/-- The `v-else-if` / `v-else` checks of the cascade (factored so the
`v-if` branch above can fall through to them, as the source's
sequential `if`s do). -/
def stepElse (ev : Eval) (scope : Scope) (previousRendered : Bool)
    (next : List (String × String) → List SNode)
    (ats : List (String × String)) : List SNode :=
  match getAttr ats "v-else-if" with
  | some cond =>
      if previousRendered || !truthy (ev cond scope) then []
      else stepElseFinal previousRendered next (removeAttr ats "v-else-if")
  | none => stepElseFinal previousRendered next ats

def stepElseFinal (previousRendered : Bool)
    (next : List (String × String) → List SNode)
    (ats : List (String × String)) : List SNode :=
  match getAttr ats "v-else" with
  | some _ =>
      if previousRendered then []
      else next (removeAttr ats "v-else")
  | none => next ats

/-- The child-processing loop of `processNode`: skips blank text nodes
(removing them from the output) and threads the
immediately-previous-sibling-rendered flag. -/
def processChildren (ev : Eval) (scope : Scope) (previousRendered : Bool) :
    List SNode → List SNode
  | [] => []
  | c :: cs =>
      if isEmptyText c then processChildren ev scope previousRendered cs
      else
        let processed := processNode ev scope previousRendered c
        processed ++ processChildren ev scope (!processed.isEmpty) cs
end

/-- The top-level mapping of `compileTemplateToHTML` (lines 156–160):
each top-level node is processed with the default `previousRendered =
false`; results are flattened and nulls dropped. -/
def processTop (ev : Eval) (scope : Scope) (ns : List SNode) : List SNode :=
  (ns.map (fun n => processNode ev scope false n)).flatten

def renderAttrs (ats : List (String × String)) : String :=
  ats.foldl (fun acc p => acc ++ " " ++ p.1 ++ "=\"" ++ p.2 ++ "\"") ""

mutual
/-- Minimal embedding of the `dom-serializer` `render` used by
`compileTemplateToHTML` (raw text, attributes, explicit end tags). -/
def renderNode : SNode → String
  | .text d => d
  | .elem t a ch =>
      "<" ++ t ++ renderAttrs a ++ ">" ++ renderNodes ch ++ "</" ++ t ++ ">"
def renderNodes : List SNode → String
  | [] => ""
  | n :: ns => renderNode n ++ renderNodes ns
end

/-- One collected item of a client conditional chain
(`handleConditionalChain`, html.js lines 113–150), with its condition
already resolved: the source resolves a `v-if` / `v-else-if` condition
by marker lookup (`markerIndex !== -1 ? values[markerIndex] : false`)
and truthiness; `v-else` carries none. -/
inductive CItem where
  | cif (cond : Bool) (el : SNode)
  | celseif (cond : Bool) (el : SNode)
  | celse (el : SNode)

/-- Whether the evaluation loop keeps this item when nothing before it
was kept (`v-else` always matches; the others by their condition). -/
def CItem.keeps : CItem → Bool
  | .cif b _ => b
  | .celseif b _ => b
  | .celse _ => true

/-- The item's element with its own chain directive attribute removed
(`removeAttribute`). -/
def CItem.strip : CItem → SNode
  | .cif _ (.elem t a ch) => .elem t (removeAttr a "v-if") ch
  | .celseif _ (.elem t a ch) => .elem t (removeAttr a "v-else-if") ch
  | .celse (.elem t a ch) => .elem t (removeAttr a "v-else") ch
  | .cif _ n => n
  | .celseif _ n => n
  | .celse n => n

/-- The evaluation loop of `handleConditionalChain` (html.js lines
152–173): walk the collected chain; while nothing is kept, a
non-matching item is removed and a matching one is kept with its
directive attribute stripped; once something is kept every further item
is removed.  The result is the kept element, if any. -/
def evalChain (items : List CItem) : Option SNode :=
  items.foldl
    (fun kept item =>
      match kept with
      | some k => some k
      | none => if item.keeps then some item.strip else none)
    none

/-- A client `v-for` item: a plain object whose properties are
serialized into attribute strings by `setAttribute`. -/
abbrev ItemObj := List (String × String)

/-- `item[prop] ?? ''`. -/
def lookupItem (item : ItemObj) (k : String) : String :=
  match item with
  | [] => ""
  | p :: rest => if p.1 = k then p.2 else lookupItem rest k

def containsList (pat : List Char) : List Char → Bool
  | [] => isPrefixList pat []
  | c :: rest => isPrefixList pat (c :: rest) || containsList pat rest

/-- `value.replace(pat, '')` for a plain pattern: removes the first
occurrence. -/
def removeFirstList (pat : List Char) : List Char → List Char
  | [] => []
  | c :: rest =>
      if isPrefixList pat (c :: rest) then (c :: rest).drop pat.length
      else c :: removeFirstList pat rest

mutual
/-- `replaceItemReferences` (html.js lines 215–228): an attribute value
containing `item.` is replaced by the item's property named by the
value with its first `item.` removed (a missing property becomes "");
children are processed recursively; text content is not touched. -/
def replaceItemRefs (item : ItemObj) : SNode → SNode
  | .text d => .text d
  | .elem t a ch =>
      .elem t
        (a.map (fun p =>
          if containsList "item.".data p.2.data then
            (p.1, lookupItem item
              (String.mk (removeFirstList "item.".data p.2.data)))
          else p))
        (replaceItemRefsList item ch)
def replaceItemRefsList (item : ItemObj) : List SNode → List SNode
  | [] => []
  | n :: ns => replaceItemRefs item n :: replaceItemRefsList item ns
end

def removeVFor : SNode → SNode
  | .elem t a ch => .elem t (removeAttr a "v-for") ch
  | .text d => .text d

/-- `handleVFor` (html.js lines 186–207): with no marker in the
attribute value or a non-array marker value (`resolved = none`) the
directive attribute is removed and the element left in place; otherwise
the element (with `v-for` removed) is cloned once per item in array
order and each independent clone gets its `item.` references
replaced. -/
def handleVFor (resolved : Option (List ItemObj)) (el : SNode) :
    List SNode :=
  match resolved with
  | none => [removeVFor el]
  | some items => items.map (fun it => replaceItemRefs it (removeVFor el))

/-- Whether an attribute list is free of the five structural
directives. -/
def noStructural (ats : List (String × String)) : Bool :=
  !(ats.any (fun p =>
    p.1 = "v-if" || p.1 = "v-else-if" || p.1 = "v-else" ||
      p.1 = "v-show" || p.1 = "v-for"))

/-- A concrete instance of the dynamic evaluator, interpreting exactly
the expression strings of the claims' examples: the literals `true`,
`false` and `[1,2,3]`, and otherwise a scope variable (a thrown
`ReferenceError` is mapped to `""` by the source's `catch`). -/
def evalLit : Eval := fun expr scope =>
  if expr = "true" then .vbool true
  else if expr = "false" then .vbool false
  else if expr = "[1,2,3]" then .varr [.vnum 1, .vnum 2, .vnum 3]
  else
    match lookupScope scope expr with
    | some v => v
    | none => .vstr ""

/-- `<p v-if="cond">inner</p>` as parsed by htmlparser2. -/
def pIf (cond inner : String) : SNode :=
  .elem "p" [("v-if", cond)] [.text inner]

def pElseIf (cond inner : String) : SNode :=
  .elem "p" [("v-else-if", cond)] [.text inner]

/-- `<p v-else>inner</p>` (a bare attribute parses with value ""). -/
def pElse (inner : String) : SNode :=
  .elem "p" [("v-else", "")] [.text inner]

/-- `<li v-for="x in [1,2,3]">` with interpolated text content. -/
def liFor : SNode :=
  .elem "li" [("v-for", "x in [1,2,3]")] [.text "\x7b\x7bx\x7d\x7d"]

end Template

namespace Streaming

/-! Embedding of the streaming phase of `renderAndSendPage`.  Two
variants exist in the repository: `src/server/router.js` lines 247–289,
whose fragment-error catch block calls `res.write` on the undefined
variable `res`, and `src/unnamed/part_021` lines 440–487 (matching the
readme's ISR flow), whose catch block writes through `context.res`.
Fragments render concurrently and each writes its chunk when its render
settles; the embedding takes the fragments already ordered by
completion (`completed`), so quantifying over that list covers every
completion order. -/

/-- `generateReplacementContent` (src/server/utils/streaming.js lines
158–162): an inert template holder carrying the rendered markup plus
the activation script pairing the holder id with the boundary id. -/
def generateReplacementContent (suspenseId renderedContent : String) :
    String :=
  "<template id=\"" ++ suspenseId ++ "-content\">" ++ renderedContent ++
    "</template><script src=\"/public/app/services/hydrate.js\"" ++
    " data-target=\"" ++ suspenseId ++ "\" data-source=\"" ++
    suspenseId ++ "-content\" async></script>"

/-- The inline placeholder written for a failed fragment. -/
def errorPlaceholder : String :=
  "<div class=\"text-red-500\">Error loading content</div>"

/-- The closing markup written by `endStreamResponse`. -/
def closingMarkup : String := "</body></html>"

/-- One deferred suspense fragment: its boundary id and the outcome of
its independent render (`renderSuspenseComponent`) — rendered markup or
a thrown error. -/
structure Frag where
  id : String
  result : Except String String

def Frag.failed (f : Frag) : Bool :=
  match f.result with
  | .error _ => true
  | .ok _ => false

/-- The chunk a settled fragment writes in the part_021 variant:
replacement content on success, the error placeholder (still paired
with the boundary id) on failure. -/
def fragChunk (f : Frag) : String :=
  match f.result with
  | .ok content => generateReplacementContent f.id content
  | .error _ => generateReplacementContent f.id errorPlaceholder

/-- The chunks pushed onto `htmlChunks`: only successful fragments push
theirs (the catch block writes the placeholder without pushing). -/
def successChunks (completed : List Frag) : List String :=
  completed.filterMap (fun f =>
    match f.result with
    | .ok c => some (generateReplacementContent f.id c)
    | .error _ => none)

/-- Result of the streaming phase: the chunks written to the response
in order, the `htmlChunks` accumulator, the `errorStream` flag, and the
cache write performed after the close step (key and markup), if any. -/
structure StreamResult where
  written : List String
  htmlChunks : List String
  errorStream : Bool
  cacheWrite : Option (String × String)
  deriving DecidableEq

/-- The streaming phase in the `src/unnamed/part_021` variant: shell
first; one chunk per fragment in completion order (placeholder on
failure, which also sets `errorStream`); the closing markup after all
fragments settled; then a cache write under the key `pagePath` with the
joined `htmlChunks`, iff ISR is enabled and neither the abort flag
(set by the response close event) nor the error flag is set. -/
def streamP21 (shell : String) (completed : List Frag) (aborted : Bool)
    (isISR : Bool) (pagePath : String) : StreamResult :=
  let errorStream := completed.any Frag.failed
  let htmlChunks := (shell :: successChunks completed) ++ [closingMarkup]
  { written := (shell :: completed.map fragChunk) ++ [closingMarkup]
    htmlChunks := htmlChunks
    errorStream := errorStream
    cacheWrite :=
      if isISR && !aborted && !errorStream then
        some (pagePath, String.join htmlChunks)
      else none }

/-- The streaming phase in `src/server/router.js`: identical while no
fragment fails, but a failed fragment's catch block evaluates the
undefined variable `res`, so a `ReferenceError` is thrown before the
placeholder write and before `errorStream = true`; the fragment promise
rejects, `await Promise.all` rethrows, and neither `endStreamResponse`
nor the cache write is reached — the response ends with the chunks of
the successful fragments only. -/
def streamRouter (shell : String) (completed : List Frag)
    (aborted : Bool) (isISR : Bool) (pagePath : String) :
    Except StreamResult StreamResult :=
  if completed.any Frag.failed then
    .error
      { written := shell :: successChunks completed
        htmlChunks := shell :: successChunks completed
        errorStream := false
        cacheWrite := none }
  else .ok (streamP21 shell completed aborted isISR pagePath)

/-- Applying the streaming phase's cache write (if any) to the disk
store, at write time `now`. -/
def applyCacheWrite (store : Cache.DiskStore)
    (w : Option (String × String)) (now : Int) : Cache.DiskStore :=
  match w with
  | none => store
  | some (k, html) => Cache.saveCachedComponentHtml store k html now

/-- The fragments of the C3/C8 scenarios: one resolving, one (for C3)
throwing. -/
def fragOk : Frag := ⟨"suspense-0", .ok "<p>X</p>"⟩

def fragBad : Frag := ⟨"suspense-1", .error "boom"⟩

def shellC : String := "<html><body>"

end Streaming

/-!
Supporting lemmas, then one theorem per claim (with its
counterexample and witness where applicable).
-/

namespace Cache

theorem getDisk_save (store : DiskStore) (key html : String) (t : Int) :
    getComponentHtmlDisk (saveComponentHtmlDisk store key html t) key =
      some ⟨html, t, false⟩ := by
  simp [getComponentHtmlDisk, saveComponentHtmlDisk]

theorem getDisk_mark_save (store : DiskStore) (key html : String)
    (t : Int) :
    getComponentHtmlDisk
      (markComponentHtmlStale (saveComponentHtmlDisk store key html t) key)
      key = some ⟨html, t, true⟩ := by
  simp [getComponentHtmlDisk, markComponentHtmlStale,
    saveComponentHtmlDisk]

end Cache

namespace Reactive

theorem getTrap_runs (sys : System) (s : RState) (c : CellId) (k : Key) :
    (getTrap sys s c k).runs = s.runs := by
  unfold getTrap; split <;> rfl

theorem getTrap_active (sys : System) (s : RState) (c : CellId) (k : Key) :
    (getTrap sys s c k).active = s.active := by
  unfold getTrap; split <;> rfl

theorem getTrap_store (sys : System) (s : RState) (c : CellId) (k : Key) :
    (getTrap sys s c k).store = s.store := by
  unfold getTrap; split <;> rfl

theorem getTrap_of_inactive (sys : System) (s : RState) (c : CellId)
    (k : Key) (h : s.active = none) : getTrap sys s c k = s := by
  unfold getTrap; rw [h]

theorem foldl_execAct_runs (sys : System) (acts : List Act)
    (h : ∀ a ∈ acts, a.isRead = true) (s : RState) :
    (acts.foldl (execAct sys) s).runs = s.runs := by
  induction acts generalizing s with
  | nil => rfl
  | cons a as ih =>
    have ha : a.isRead = true := h a (by simp)
    rw [List.foldl_cons, ih (fun b hb => h b (by simp [hb]))]
    cases a with
    | read c k => simp [execAct, getTrap_runs]
    | nest e b => simp [Act.isRead] at ha

theorem runEffect_runs (sys : System) (e : EffId) (s : RState)
    (h : ReadOnlyBody sys e) (f : EffId) :
    (runEffect sys e s).runs f =
      if f = e then s.runs f + 1 else s.runs f := by
  show bump ((sys.body e s.store).foldl (execAct sys)
      { s with active := some e }).runs e f = _
  unfold bump
  rw [foldl_execAct_runs sys _ (h _)]

theorem notify_runs (sys : System) (es : List EffId)
    (h : ∀ e ∈ es, ReadOnlyBody sys e) (s : RState) (f : EffId) :
    (notify sys s es).runs f = s.runs f + es.count f := by
  induction es generalizing s with
  | nil => simp [notify]
  | cons e es ih =>
    have h1 : (notify sys (runEffect sys e s) es).runs f =
        (runEffect sys e s).runs f + es.count f :=
      ih (fun x hx => h x (by simp [hx])) (runEffect sys e s)
    have h2 := runEffect_runs sys e s (h e (by simp)) f
    show (notify sys (runEffect sys e s) es).runs f = _
    rw [h1, h2]
    by_cases hf : f = e
    · subst hf
      rw [if_pos rfl, List.count_cons_self]
      omega
    · rw [if_neg hf, List.count_cons_of_ne hf]

theorem subsOf_addSub_self (subs : List (CKey × List EffId)) (ck : CKey)
    (e : EffId) :
    subsOf (addSub subs ck e) ck =
      if e ∈ subsOf subs ck then subsOf subs ck
      else subsOf subs ck ++ [e] := by
  induction subs with
  | nil => simp [subsOf, addSub]
  | cons p rest ih =>
    by_cases hp : p.1 = ck
    · simp [subsOf, addSub, hp]
    · simp [subsOf, addSub, hp, ih]

theorem subsOf_addSub_ne (subs : List (CKey × List EffId)) (ck ck2 : CKey)
    (e : EffId) (h : ¬ ck2 = ck) :
    subsOf (addSub subs ck e) ck2 = subsOf subs ck2 := by
  have h2 : ¬ ck = ck2 := fun hx => h hx.symm
  induction subs with
  | nil => simp [subsOf, addSub, h2]
  | cons p rest ih =>
    by_cases hp : p.1 = ck
    · have hp2 : ¬ p.1 = ck2 := by rw [hp]; exact h2
      simp [subsOf, addSub, hp, hp2, h2]
    · by_cases hq : p.1 = ck2 <;> simp [subsOf, addSub, hp, hq, ih, h]

theorem mem_subsOf_addSub_self (subs : List (CKey × List EffId))
    (ck : CKey) (e : EffId) : e ∈ subsOf (addSub subs ck e) ck := by
  rw [subsOf_addSub_self]
  by_cases hm : e ∈ subsOf subs ck <;> simp [hm]

theorem addSub_mono (subs : List (CKey × List EffId)) (ck ck2 : CKey)
    (e f : EffId) (h : f ∈ subsOf subs ck2) :
    f ∈ subsOf (addSub subs ck e) ck2 := by
  by_cases hck : ck2 = ck
  · subst hck
    rw [subsOf_addSub_self]
    by_cases hm : e ∈ subsOf subs ck2 <;> simp [hm, h]
  · rw [subsOf_addSub_ne subs ck ck2 e hck]; exact h

theorem getTrap_subs_mono (sys : System) (s : RState) (c : CellId)
    (k : Key) (ck2 : CKey) (f : EffId) (h : f ∈ subsOf s.subs ck2) :
    f ∈ subsOf (getTrap sys s c k).subs ck2 := by
  unfold getTrap
  cases s.active with
  | none => exact h
  | some e => exact addSub_mono _ _ _ _ _ h

theorem foldl_getTrap_subs_mono (sys : System) (bs : List CKey)
    (s : RState) (ck2 : CKey) (f : EffId) (h : f ∈ subsOf s.subs ck2) :
    f ∈ subsOf
      ((bs.foldl (fun st ck => getTrap sys st ck.1 ck.2) s).subs) ck2 := by
  induction bs generalizing s with
  | nil => exact h
  | cons b bs ih =>
    exact ih (getTrap sys s b.1 b.2) (getTrap_subs_mono sys s b.1 b.2 ck2 f h)

theorem runInner_subs_mono (sys : System) (e : EffId) (bs : List CKey)
    (s : RState) (ck2 : CKey) (f : EffId) (h : f ∈ subsOf s.subs ck2) :
    f ∈ subsOf (runInner sys e bs s).subs ck2 := by
  unfold runInner
  exact foldl_getTrap_subs_mono sys bs _ ck2 f h

theorem execAct_subs_mono (sys : System) (s : RState) (a : Act)
    (ck2 : CKey) (f : EffId) (h : f ∈ subsOf s.subs ck2) :
    f ∈ subsOf (execAct sys s a).subs ck2 := by
  cases a with
  | read c k => exact getTrap_subs_mono sys s c k ck2 f h
  | nest e b => exact runInner_subs_mono sys e b s ck2 f h

theorem foldl_execAct_subs_mono (sys : System) (acts : List Act)
    (s : RState) (ck2 : CKey) (f : EffId) (h : f ∈ subsOf s.subs ck2) :
    f ∈ subsOf ((acts.foldl (execAct sys) s).subs) ck2 := by
  induction acts generalizing s with
  | nil => exact h
  | cons a as ih => exact ih (execAct sys s a) (execAct_subs_mono sys s a ck2 f h)

theorem runEffect_subs_mono (sys : System) (e : EffId) (s : RState)
    (ck2 : CKey) (f : EffId) (h : f ∈ subsOf s.subs ck2) :
    f ∈ subsOf (runEffect sys e s).subs ck2 := by
  unfold runEffect
  exact foldl_execAct_subs_mono sys _ _ ck2 f h

theorem foldl_getTrap_reads_subscribed (sys : System) (e : EffId)
    (ck0 : CKey) :
    ∀ (bs : List CKey) (s : RState), s.active = some e → ck0 ∈ bs →
      e ∈ subsOf
        ((bs.foldl (fun st ck => getTrap sys st ck.1 ck.2) s).subs)
        (ck0.1, canonKey sys ck0.1 ck0.2) := by
  intro bs
  induction bs with
  | nil => intro s _ hmem; cases hmem
  | cons b bs ih =>
    intro s hact hmem
    rw [List.foldl_cons]
    rcases List.mem_cons.mp hmem with hb | hb
    · subst hb
      apply foldl_getTrap_subs_mono
      show e ∈ subsOf (getTrap sys s ck0.1 ck0.2).subs
        (ck0.1, canonKey sys ck0.1 ck0.2)
      unfold getTrap
      rw [hact]
      exact mem_subsOf_addSub_self _ _ _
    · exact ih (getTrap sys s b.1 b.2)
        (by rw [getTrap_active]; exact hact) hb

theorem foldl_execAct_reads_subscribed (sys : System) (e : EffId)
    (c : CellId) (k : Key) :
    ∀ (acts : List Act) (s : RState),
      (∀ a ∈ acts, a.isRead = true) → s.active = some e →
      Act.read c k ∈ acts →
      e ∈ subsOf ((acts.foldl (execAct sys) s).subs)
        (c, canonKey sys c k) := by
  intro acts
  induction acts with
  | nil => intro s _ _ hmem; cases hmem
  | cons a as ih =>
    intro s hro hact hmem
    rw [List.foldl_cons]
    rcases List.mem_cons.mp hmem with hb | hb
    · rw [← hb]
      apply foldl_execAct_subs_mono
      show e ∈ subsOf (getTrap sys s c k).subs (c, canonKey sys c k)
      unfold getTrap
      rw [hact]
      exact mem_subsOf_addSub_self _ _ _
    · have ha : a.isRead = true := hro a (by simp)
      cases a with
      | read c2 k2 =>
        exact ih (getTrap sys s c2 k2) (fun b hb2 => hro b (by simp [hb2]))
          (by rw [getTrap_active]; exact hact) hb
      | nest e2 b2 => simp [Act.isRead] at ha

theorem runEffect_reads_subscribed (sys : System) (e : EffId) (s : RState)
    (hro : ReadOnlyBody sys e) (c : CellId) (k : Key)
    (hmem : Act.read c k ∈ sys.body e s.store) :
    e ∈ subsOf (runEffect sys e s).subs (c, canonKey sys c k) := by
  unfold runEffect
  exact foldl_execAct_reads_subscribed sys e c k _ _ (hro _) rfl hmem

theorem runInner_active (sys : System) (e : EffId) (bs : List CKey)
    (s : RState) : (runInner sys e bs s).active = none := rfl

theorem runInner_reads_subscribed (sys : System) (e : EffId)
    (bs : List CKey) (s : RState) (ck0 : CKey) (hmem : ck0 ∈ bs) :
    e ∈ subsOf (runInner sys e bs s).subs
      (ck0.1, canonKey sys ck0.1 ck0.2) := by
  unfold runInner
  exact foldl_getTrap_reads_subscribed sys e ck0 bs _ rfl hmem

end Reactive

namespace Template

theorem getAttr_none :
    ∀ (ats : List (String × String)) (k : String),
      (∀ p ∈ ats, ¬ p.1 = k) → getAttr ats k = none
  | [], _, _ => rfl
  | p :: rest, k, h => by
      have hp : ¬ p.1 = k := h p (by simp)
      simp [getAttr, hp,
        getAttr_none rest k (fun q hq => h q (by simp [hq]))]

theorem removeAttr_id (ats : List (String × String)) (k : String)
    (h : ∀ p ∈ ats, ¬ p.1 = k) : removeAttr ats k = ats := by
  unfold removeAttr
  rw [List.filter_eq_self]
  intro a ha
  simpa using h a ha

theorem noStructural_spec (ats : List (String × String))
    (h : noStructural ats = true) :
    ∀ p ∈ ats,
      ¬ p.1 = "v-if" ∧ ¬ p.1 = "v-else-if" ∧ ¬ p.1 = "v-else" ∧
        ¬ p.1 = "v-show" ∧ ¬ p.1 = "v-for" := by
  intro p hp
  simp only [noStructural, Bool.not_eq_eq_eq_not, Bool.not_true,
    List.any_eq_false] at h
  have h2 := h p hp
  simp at h2
  tauto

/-- Cascade of a structurally directive-free element: only the binding
passes and the child walk remain. -/
theorem processNode_plain (ev : Eval) (scope : Scope) (prev : Bool)
    (t : String) (ats : List (String × String)) (ch : List SNode)
    (h : noStructural ats = true) :
    processNode ev scope prev (.elem t ats ch) =
      [.elem t (stripEvents (bindPass ev scope ats))
        (processChildren ev scope false ch)] := by
  have hs := noStructural_spec ats h
  have hif := getAttr_none ats "v-if" (fun p hp => (hs p hp).1)
  have helseif := getAttr_none ats "v-else-if" (fun p hp => (hs p hp).2.1)
  have helse := getAttr_none ats "v-else" (fun p hp => (hs p hp).2.2.1)
  have hshow := getAttr_none ats "v-show" (fun p hp => (hs p hp).2.2.2.1)
  have hfor := getAttr_none ats "v-for" (fun p hp => (hs p hp).2.2.2.2)
  simp only [processNode, stepElse, stepElseFinal, hif, helseif, helse,
    hshow, hfor]

/-- Cascade of an element whose attributes are `v-if` followed by
directive-free attributes. -/
theorem processNode_vif (ev : Eval) (scope : Scope) (prev : Bool)
    (t cond : String) (ats : List (String × String)) (ch : List SNode)
    (h : noStructural ats = true) :
    processNode ev scope prev (.elem t (("v-if", cond) :: ats) ch) =
      if truthy (ev cond scope) then
        [.elem t (stripEvents (bindPass ev scope ats))
          (processChildren ev scope false ch)]
      else [] := by
  have hs := noStructural_spec ats h
  have helseif := getAttr_none ats "v-else-if" (fun p hp => (hs p hp).2.1)
  have helse := getAttr_none ats "v-else" (fun p hp => (hs p hp).2.2.1)
  have hshow := getAttr_none ats "v-show" (fun p hp => (hs p hp).2.2.2.1)
  have hfor := getAttr_none ats "v-for" (fun p hp => (hs p hp).2.2.2.2)
  have hhead : getAttr (("v-if", cond) :: ats) "v-if" = some cond := by
    simp [getAttr]
  have hrem : removeAttr (("v-if", cond) :: ats) "v-if" = ats := by
    have h1 : removeAttr (("v-if", cond) :: ats) "v-if" =
        removeAttr ats "v-if" := by
      simp [removeAttr]
    rw [h1, removeAttr_id ats "v-if" (fun p hp => (hs p hp).1)]
  by_cases htr : truthy (ev cond scope)
  · simp only [processNode, hhead, hrem, htr, if_true, stepElse,
      stepElseFinal, helseif, helse, hshow, hfor]
  · simp only [processNode, hhead, hrem, htr, Bool.false_eq_true,
      if_false]

/-- Cascade of an element whose attributes are `v-else` followed by
directive-free attributes. -/
theorem processNode_velse (ev : Eval) (scope : Scope) (prev : Bool)
    (t x : String) (ats : List (String × String)) (ch : List SNode)
    (h : noStructural ats = true) :
    processNode ev scope prev (.elem t (("v-else", x) :: ats) ch) =
      if prev then []
      else
        [.elem t (stripEvents (bindPass ev scope ats))
          (processChildren ev scope false ch)] := by
  have hs := noStructural_spec ats h
  have hif := getAttr_none ats "v-if" (fun p hp => (hs p hp).1)
  have helseif := getAttr_none ats "v-else-if" (fun p hp => (hs p hp).2.1)
  have hshow := getAttr_none ats "v-show" (fun p hp => (hs p hp).2.2.2.1)
  have hfor := getAttr_none ats "v-for" (fun p hp => (hs p hp).2.2.2.2)
  have hif2 : getAttr (("v-else", x) :: ats) "v-if" = none := by
    simp [getAttr, hif]
  have helseif2 : getAttr (("v-else", x) :: ats) "v-else-if" = none := by
    simp [getAttr, helseif]
  have hhead : getAttr (("v-else", x) :: ats) "v-else" = some x := by
    simp [getAttr]
  have hrem : removeAttr (("v-else", x) :: ats) "v-else" = ats := by
    have h1 : removeAttr (("v-else", x) :: ats) "v-else" =
        removeAttr ats "v-else" := by
      simp [removeAttr]
    rw [h1, removeAttr_id ats "v-else" (fun p hp => (hs p hp).2.2.1)]
  by_cases hp : prev
  · simp only [processNode, hif2, stepElse, helseif2, stepElseFinal,
      hhead, hp, if_true]
  · simp only [processNode, hif2, stepElse, helseif2, stepElseFinal,
      hhead, hp, Bool.false_eq_true, if_false, hrem, hshow, hfor]

/-- The sibling walk on a two-element `v-if` / `v-else` chain keeps
exactly one of the two, by the `v-if` condition. -/
theorem server_two_chain (ev : Eval) (scope : Scope) (t1 e1 : String)
    (a1 : List (String × String)) (ch1 : List SNode) (t2 x : String)
    (a2 : List (String × String)) (ch2 : List SNode)
    (h1 : noStructural a1 = true) (h2 : noStructural a2 = true) :
    processChildren ev scope false
      [.elem t1 (("v-if", e1) :: a1) ch1,
       .elem t2 (("v-else", x) :: a2) ch2] =
      if truthy (ev e1 scope) then
        [.elem t1 (stripEvents (bindPass ev scope a1))
          (processChildren ev scope false ch1)]
      else
        [.elem t2 (stripEvents (bindPass ev scope a2))
          (processChildren ev scope false ch2)] := by
  have hstep : ∀ (prev : Bool) (n : SNode) (rest : List SNode),
      ¬ isEmptyText n = true →
      processChildren ev scope prev (n :: rest) =
        processNode ev scope prev n ++
          processChildren ev scope
            (!(processNode ev scope prev n).isEmpty) rest := by
    intro prev n rest hn
    simp only [processChildren, hn, if_false, Bool.false_eq_true]
  rw [hstep false _ _ (by simp [isEmptyText]),
    processNode_vif ev scope false t1 e1 a1 ch1 h1]
  by_cases htr : truthy (ev e1 scope)
  · rw [if_pos htr]
    simp only [List.isEmpty_cons, Bool.not_false]
    rw [hstep true _ _ (by simp [isEmptyText]),
      processNode_velse ev scope true t2 x a2 ch2 h2]
    simp [processChildren, htr]
  · rw [if_neg htr]
    simp only [List.nil_append, List.isEmpty_nil, Bool.not_true]
    rw [hstep false _ _ (by simp [isEmptyText]),
      processNode_velse ev scope false t2 x a2 ch2 h2]
    simp [processChildren, htr]

theorem evalChain_from_some (items : List CItem) (k : SNode) :
    items.foldl
      (fun kept item =>
        match kept with
        | some k2 => some k2
        | none => if item.keeps then some item.strip else none)
      (some k) = some k := by
  induction items with
  | nil => rfl
  | cons item rest ih => simpa using ih

/-- The client chain evaluation keeps exactly the first matching item,
directive-stripped. -/
theorem evalChain_eq_find (items : List CItem) :
    evalChain items = (items.find? CItem.keeps).map CItem.strip := by
  induction items with
  | nil => rfl
  | cons item rest ih =>
    unfold evalChain
    rw [List.foldl_cons]
    by_cases hk : item.keeps
    · rw [if_pos hk, evalChain_from_some,
        List.find?_cons_of_pos _ hk]
      rfl
    · rw [if_neg hk, List.find?_cons_of_neg _ (by simpa using hk)]
      exact ih

theorem flatten_singleton_map {α β : Type} (f : α → β) (l : List α) :
    (l.map (fun a => [f a])).flatten = l.map f := by
  induction l with
  | nil => rfl
  | cons a as ih => simp [ih]

/-- Cascade of an element whose attributes are `v-for` followed by
directive-free attributes: one clone per array element, in order, each
processed under the extended scope. -/
theorem processNode_vfor (ev : Eval) (scope : Scope) (prev : Bool)
    (t vf x lexpr : String) (ats : List (String × String))
    (ch : List SNode) (items : List Val)
    (h : noStructural ats = true)
    (hparse : vForParse vf = some (x, lexpr))
    (harr : ev lexpr scope = .varr items) :
    processNode ev scope prev (.elem t (("v-for", vf) :: ats) ch) =
      items.map (fun it =>
        .elem t (stripEvents (bindPass ev (scopeSet scope x it) ats))
          (processChildren ev (scopeSet scope x it) false ch)) := by
  have hs := noStructural_spec ats h
  have hif := getAttr_none ats "v-if" (fun p hp => (hs p hp).1)
  have helseif := getAttr_none ats "v-else-if" (fun p hp => (hs p hp).2.1)
  have helse := getAttr_none ats "v-else" (fun p hp => (hs p hp).2.2.1)
  have hshow := getAttr_none ats "v-show" (fun p hp => (hs p hp).2.2.2.1)
  have hif2 : getAttr (("v-for", vf) :: ats) "v-if" = none := by
    simp [getAttr, hif]
  have helseif2 : getAttr (("v-for", vf) :: ats) "v-else-if" = none := by
    simp [getAttr, helseif]
  have helse2 : getAttr (("v-for", vf) :: ats) "v-else" = none := by
    simp [getAttr, helse]
  have hshow2 : getAttr (("v-for", vf) :: ats) "v-show" = none := by
    simp [getAttr, hshow]
  have hhead : getAttr (("v-for", vf) :: ats) "v-for" = some vf := by
    simp [getAttr]
  have hrem : removeAttr (("v-for", vf) :: ats) "v-for" = ats := by
    have h1 : removeAttr (("v-for", vf) :: ats) "v-for" =
        removeAttr ats "v-for" := by
      simp [removeAttr]
    rw [h1, removeAttr_id ats "v-for" (fun p hp => (hs p hp).2.2.2.2)]
  simp only [processNode, hif2, stepElse, helseif2, stepElseFinal,
    helse2, hshow2, hhead, hrem, hparse, harr]
  exact flatten_singleton_map _ items

end Template

/-- C1: writing a tracked property synchronously runs every subscriber
of that (cell, property) pair exactly once per write — no batching, no
deduplication — so an effect that read the pair gains exactly one run
per write and effects that did not read it gain none; in particular a
cell created from 0 and read inside an effect, then incremented twice
synchronously, runs the effect body 3 times in total. -/
theorem c1_each_write_runs_each_subscriber_once
    (sys : Reactive.System) (s : Reactive.RState) (c : Reactive.CellId)
    (k : Reactive.Key) (v : Int) (f : Reactive.EffId)
    (hro : ∀ e, Reactive.ReadOnlyBody sys e)
    (hnd : (Reactive.subsOf s.subs (c, Reactive.canonKey sys c k)).Nodup) :
    ((Reactive.setProp sys s c k v).runs f =
      s.runs f +
        (if f ∈ Reactive.subsOf s.subs (c, Reactive.canonKey sys c k)
         then 1 else 0)) ∧
    Reactive.counterAfterInit.runs 0 = 1 ∧
    Reactive.counterAfterTwoWrites.runs 0 = 3 := by
  refine ⟨?_, by decide, by decide⟩
  show (Reactive.notify sys
      { s with store :=
          Reactive.updateStore s.store c (Reactive.canonKey sys c k) v }
      (Reactive.subsOf s.subs (c, Reactive.canonKey sys c k))).runs f = _
  rw [Reactive.notify_runs sys _ (fun e _ => hro e)]
  show s.runs f + _ = s.runs f + _
  congr 1
  by_cases hm : f ∈ Reactive.subsOf s.subs (c, Reactive.canonKey sys c k)
  · rw [if_pos hm]
    exact List.count_eq_one_of_mem hnd hm
  · rw [if_neg hm]
    exact List.count_eq_zero_of_not_mem hm

/-- C1 witness: the general statement applied to the counter system in
its post-initialization state. -/
theorem c1_each_write_runs_each_subscriber_once_witness :
    ((Reactive.setProp Reactive.sysCounter Reactive.counterAfterInit
        0 Reactive.valueKey 5).runs 0 =
      Reactive.counterAfterInit.runs 0 +
        (if 0 ∈ Reactive.subsOf Reactive.counterAfterInit.subs
            (0, Reactive.canonKey Reactive.sysCounter 0 Reactive.valueKey)
         then 1 else 0)) ∧
    Reactive.counterAfterInit.runs 0 = 1 ∧
    Reactive.counterAfterTwoWrites.runs 0 = 3 :=
  c1_each_write_runs_each_subscriber_once Reactive.sysCounter
    Reactive.counterAfterInit 0 Reactive.valueKey 5 0
    (by
      intro e st a ha
      by_cases he : e = 0 <;> simp [Reactive.sysCounter, he] at ha
      rw [ha]; rfl)
    (by decide)

/-- C2 counterexample: for the empty markup, reading immediately after
`set` does not return the stored markup at all — the getter tests
`if (!html)` and treats the falsy empty string as a cache miss — so the
claim's first clause fails at `html = ""`. -/
theorem c2_empty_markup_counterexample :
    Cache.getCachedComponentHtml
        (Cache.saveCachedComponentHtml [] "k" "" 0) "k" 60 0 =
      (none, false) ∧
    ¬ (Cache.getCachedComponentHtml
        (Cache.saveCachedComponentHtml [] "k" "" 0) "k" 60 0 =
      (some "", false)) := by
  constructor
  · decide
  · decide

/-- C2 amended: for non-empty markup (the getter treats falsy stored
markup as a miss): a read immediately after `set(key, html)` with a
60-second window returns the markup with `isStale = false`; after
`invalidate(key)` the same immediate read returns the markup with
`isStale = true`; and with the window set to never
(`revalidateSeconds = -1`) a read at any later time returns the markup
with `isStale = false` when `invalidate` was not called. -/
theorem c2_cache_staleness_semantics
    (store : Cache.DiskStore) (key html : String) (h : ¬ html = "")
    (t now2 : Int) :
    Cache.getCachedComponentHtml
        (Cache.saveCachedComponentHtml store key html t) key 60 t =
      (some html, false) ∧
    Cache.getCachedComponentHtml
        (Cache.revalidateCachedComponentHtml
          (Cache.saveCachedComponentHtml store key html t) key) key 60 t =
      (some html, true) ∧
    Cache.getCachedComponentHtml
        (Cache.saveCachedComponentHtml store key html t) key (-1) now2 =
      (some html, false) := by
  have hnostale : ¬ (t - t > (60 : Int) * 1000) := by omega
  refine ⟨?_, ?_, ?_⟩
  · show Cache.getCachedComponentHtml
      (Cache.saveComponentHtmlDisk store key html t) key 60 t = _
    unfold Cache.getCachedComponentHtml
    rw [Cache.getDisk_save]
    simp [h, hnostale]
  · show Cache.getCachedComponentHtml
      (Cache.markComponentHtmlStale
        (Cache.saveComponentHtmlDisk store key html t) key) key 60 t = _
    unfold Cache.getCachedComponentHtml
    rw [Cache.getDisk_mark_save]
    simp [h]
  · show Cache.getCachedComponentHtml
      (Cache.saveComponentHtmlDisk store key html t) key (-1) now2 = _
    unfold Cache.getCachedComponentHtml
    rw [Cache.getDisk_save]
    simp [h]

/-- C2 witness: the amended statement at a concrete key, markup and
timestamps. -/
theorem c2_cache_staleness_semantics_witness :
    Cache.getCachedComponentHtml
        (Cache.saveCachedComponentHtml [] "/home" "<p>hi</p>" 1000)
        "/home" 60 1000 =
      (some "<p>hi</p>", false) ∧
    Cache.getCachedComponentHtml
        (Cache.revalidateCachedComponentHtml
          (Cache.saveCachedComponentHtml [] "/home" "<p>hi</p>" 1000)
          "/home") "/home" 60 1000 =
      (some "<p>hi</p>", true) ∧
    Cache.getCachedComponentHtml
        (Cache.saveCachedComponentHtml [] "/home" "<p>hi</p>" 1000)
        "/home" (-1) 999999999 =
      (some "<p>hi</p>", false) :=
  c2_cache_staleness_semantics [] "/home" "<p>hi</p>" (by decide)
    1000 999999999

/-- C3 (code bug in src/server/router.js): when one fragment's render
throws, the catch block evaluates the undefined variable `res`
(`res.write(errorContent)`), so a ReferenceError aborts the stream
before the placeholder write: the response carries only the shell and
the successful fragment's chunk, no inline error placeholder and no
closing markup, and the whole render rejects.  The parallel variant in
src/unnamed/part_021 (matching the readme's flow) behaves as the claim
states: placeholder chunk paired with the failed boundary id, ordinary
markup for the other fragment, closing markup still sent, no cache
write. -/
theorem c3_fragment_error_stream :
    Streaming.streamRouter Streaming.shellC
        [Streaming.fragOk, Streaming.fragBad] false true "/p" =
      .error
        { written := [Streaming.shellC,
            Streaming.generateReplacementContent "suspense-0" "<p>X</p>"]
          htmlChunks := [Streaming.shellC,
            Streaming.generateReplacementContent "suspense-0" "<p>X</p>"]
          errorStream := false
          cacheWrite := none } ∧
    Streaming.streamP21 Streaming.shellC
        [Streaming.fragOk, Streaming.fragBad] false true "/p" =
      { written := [Streaming.shellC,
          Streaming.generateReplacementContent "suspense-0" "<p>X</p>",
          Streaming.generateReplacementContent "suspense-1"
            Streaming.errorPlaceholder,
          Streaming.closingMarkup]
        htmlChunks := [Streaming.shellC,
          Streaming.generateReplacementContent "suspense-0" "<p>X</p>",
          Streaming.closingMarkup]
        errorStream := true
        cacheWrite := none } :=
  ⟨rfl, rfl⟩

/-- C4 counterexample: the server sibling walk threads only the
immediately-preceding-sibling flag, so in the chain
`v-if="true" / v-else-if="false" / v-else` the `v-else` element is kept
although the first element already matched; and at the top level of
`compileTemplateToHTML` each node is processed with a fresh flag, so
the claim's own two-element example `<p v-if="true">A</p><p v-else>B</p>`
renders both elements there. -/
theorem c4_server_chain_counterexample :
    Template.processNode Template.evalLit [] false
        (.elem "div" []
          [Template.pIf "true" "A", Template.pElseIf "false" "B",
           Template.pElse "C"]) =
      [.elem "div" []
        [.elem "p" [] [.text "A"], .elem "p" [] [.text "C"]]] ∧
    Template.renderNodes
        (Template.processTop Template.evalLit []
          [Template.pIf "true" "A", Template.pElse "B"]) =
      "<p>A</p><p>B</p>" :=
  ⟨rfl, rfl⟩

/-- C4 amended: the client chain evaluation keeps exactly the first
item whose condition is truthy (an else item always matches), stripped
of its directive attribute, and discards every other collected item.
The server renderer guarantees first-truthy semantics only against the
immediately preceding sibling: for a two-element `v-if` / `v-else`
chain that is the child list of an element, exactly the claimed element
survives (and the round-trip example holds there), but the flag resets
whenever an element is discarded, and the top level of
`compileTemplateToHTML` does not thread the flag at all. -/
theorem c4_chain_amended
    (ev : Template.Eval) (scope : Template.Scope) (t1 e1 : String)
    (a1 : List (String × String)) (ch1 : List Template.SNode)
    (t2 x : String) (a2 : List (String × String))
    (ch2 : List Template.SNode)
    (h1 : Template.noStructural a1 = true)
    (h2 : Template.noStructural a2 = true)
    (items : List Template.CItem) :
    (Template.evalChain items =
      (items.find? Template.CItem.keeps).map Template.CItem.strip) ∧
    (Template.processChildren ev scope false
        [.elem t1 (("v-if", e1) :: a1) ch1,
         .elem t2 (("v-else", x) :: a2) ch2] =
      if Template.truthy (ev e1 scope) then
        [.elem t1 (Template.stripEvents (Template.bindPass ev scope a1))
          (Template.processChildren ev scope false ch1)]
      else
        [.elem t2 (Template.stripEvents (Template.bindPass ev scope a2))
          (Template.processChildren ev scope false ch2)]) ∧
    Template.renderNodes
        (Template.processNode Template.evalLit [] false
          (.elem "div" []
            [Template.pIf "true" "A", Template.pElse "B"])) =
      "<div><p>A</p></div>" ∧
    Template.renderNodes
        (Template.processNode Template.evalLit [] false
          (.elem "div" []
            [Template.pIf "false" "A", Template.pElse "B"])) =
      "<div><p>B</p></div>" :=
  ⟨Template.evalChain_eq_find items,
   Template.server_two_chain ev scope t1 e1 a1 ch1 t2 x a2 ch2 h1 h2,
   rfl, rfl⟩

/-- C4 witness: the amended statement at the round-trip chain and a
two-item client chain. -/
theorem c4_chain_amended_witness :
    (Template.evalChain
        [Template.CItem.cif false (Template.pIf "false" "A"),
         Template.CItem.celse (Template.pElse "B")] =
      (([Template.CItem.cif false (Template.pIf "false" "A"),
         Template.CItem.celse (Template.pElse "B")].find?
          Template.CItem.keeps).map Template.CItem.strip)) ∧
    (Template.processChildren Template.evalLit [] false
        [.elem "p" (("v-if", "true") :: []) [Template.SNode.text "A"],
         .elem "p" (("v-else", "") :: []) [Template.SNode.text "B"]] =
      if Template.truthy (Template.evalLit "true" []) then
        [.elem "p"
          (Template.stripEvents (Template.bindPass Template.evalLit [] []))
          (Template.processChildren Template.evalLit [] false
            [Template.SNode.text "A"])]
      else
        [.elem "p"
          (Template.stripEvents (Template.bindPass Template.evalLit [] []))
          (Template.processChildren Template.evalLit [] false
            [Template.SNode.text "B"])]) ∧
    Template.renderNodes
        (Template.processNode Template.evalLit [] false
          (.elem "div" []
            [Template.pIf "true" "A", Template.pElse "B"])) =
      "<div><p>A</p></div>" ∧
    Template.renderNodes
        (Template.processNode Template.evalLit [] false
          (.elem "div" []
            [Template.pIf "false" "A", Template.pElse "B"])) =
      "<div><p>B</p></div>" :=
  c4_chain_amended Template.evalLit [] "p" "true" [] [.text "A"] "p" ""
    [] [.text "B"] rfl rfl
    [Template.CItem.cif false (Template.pIf "false" "A"),
     Template.CItem.celse (Template.pElse "B")]

/-- C5: a server element carrying `v-for="x in expr"` whose expression
evaluates to an array is instantiated once per array element, in array
order, each instance the result of processing the directive-stripped
element against the scope extended with the loop variable bound to that
element — each instance a function of the original subtree, the scope
and its own item alone, so no instance can observe another (the source
clones with `structuredClone` per item); the client `handleVFor`
likewise clones the stripped template once per item in order; and
`v-for="x in [1,2,3]"` over `<li>{{x}}</li>` renders
`<li>1</li><li>2</li><li>3</li>`. -/
theorem c5_vfor_per_item
    (ev : Template.Eval) (scope : Template.Scope) (prev : Bool)
    (t vf x lexpr : String) (ats : List (String × String))
    (ch : List Template.SNode) (items : List Template.Val)
    (itemObjs : List Template.ItemObj) (el : Template.SNode)
    (h : Template.noStructural ats = true)
    (hparse : Template.vForParse vf = some (x, lexpr))
    (harr : ev lexpr scope = .varr items) :
    (Template.processNode ev scope prev
        (.elem t (("v-for", vf) :: ats) ch) =
      items.map (fun it =>
        .elem t
          (Template.stripEvents
            (Template.bindPass ev (Template.scopeSet scope x it) ats))
          (Template.processChildren ev (Template.scopeSet scope x it)
            false ch))) ∧
    (Template.handleVFor (some itemObjs) el =
      itemObjs.map (fun it =>
        Template.replaceItemRefs it (Template.removeVFor el))) ∧
    Template.renderNodes
        (Template.processNode Template.evalLit [] false Template.liFor) =
      "<li>1</li><li>2</li><li>3</li>" :=
  ⟨Template.processNode_vfor ev scope prev t vf x lexpr ats ch items
      h hparse harr,
   rfl, by decide⟩

/-- C5 witness: the statement at `v-for="x in [1,2,3]"` over
`<li>{{x}}</li>` and a two-object client item list. -/
theorem c5_vfor_per_item_witness :
    (Template.processNode Template.evalLit [] false
        (.elem "li" (("v-for", "x in [1,2,3]") :: [])
          [Template.SNode.text "\x7b\x7bx\x7d\x7d"]) =
      [Template.Val.vnum 1, Template.Val.vnum 2,
       Template.Val.vnum 3].map (fun it =>
        .elem "li"
          (Template.stripEvents
            (Template.bindPass Template.evalLit
              (Template.scopeSet [] "x" it) []))
          (Template.processChildren Template.evalLit
            (Template.scopeSet [] "x" it) false
            [Template.SNode.text "\x7b\x7bx\x7d\x7d"]))) ∧
    (Template.handleVFor (some [[("name", "a")], [("name", "b")]])
        (.elem "li" [("v-for", "arr"), ("title", "item.name")] []) =
      [[("name", "a")], [("name", "b")]].map (fun it =>
        Template.replaceItemRefs it
          (Template.removeVFor
            (.elem "li" [("v-for", "arr"), ("title", "item.name")] [])))) ∧
    Template.renderNodes
        (Template.processNode Template.evalLit [] false Template.liFor) =
      "<li>1</li><li>2</li><li>3</li>" :=
  c5_vfor_per_item Template.evalLit [] false "li" "x in [1,2,3]" "x"
    "[1,2,3]" [] [Template.SNode.text "\x7b\x7bx\x7d\x7d"]
    [Template.Val.vnum 1, Template.Val.vnum 2, Template.Val.vnum 3]
    [[("name", "a")], [("name", "b")]]
    (.elem "li" [("v-for", "arr"), ("title", "item.name")] [])
    rfl rfl rfl

/-- C6 counterexample: after a re-run (triggered by writing `sel`) in
which effect 0 read only properties 3 and 2 of cell 0, the effect is
still subscribed to (cell 0, property 1), which it read only on its
first run — the subscriber set is not recomputed from scratch. -/
theorem c6_stale_subscription_counterexample :
    Reactive.switchAfterWrite.runs 0 = 2 ∧
    Reactive.sysSwitch.body 0 Reactive.switchAfterWrite.store =
      [Reactive.Act.read 0 3, Reactive.Act.read 0 2] ∧
    0 ∈ Reactive.subsOf Reactive.switchAfterWrite.subs (0, 1) := by
  decide

/-- C6 amended: subscriptions accumulate — a run never removes a
subscription recorded earlier (only the disposer does), and after a run
of a read-only body the effect is subscribed to every pair the body
read during that run. -/
theorem c6_subscriptions_accumulate
    (sys : Reactive.System) (e f : Reactive.EffId) (s : Reactive.RState)
    (ck : Reactive.CKey) (hsub : f ∈ Reactive.subsOf s.subs ck) :
    f ∈ Reactive.subsOf (Reactive.runEffect sys e s).subs ck ∧
    (Reactive.ReadOnlyBody sys e →
      ∀ c k, Reactive.Act.read c k ∈ sys.body e s.store →
        e ∈ Reactive.subsOf (Reactive.runEffect sys e s).subs
          (c, Reactive.canonKey sys c k)) :=
  ⟨Reactive.runEffect_subs_mono sys e s ck f hsub,
   fun hro c k hm => Reactive.runEffect_reads_subscribed sys e s hro c k hm⟩

/-- C6 witness: the amended statement applied to the switch system after
its first run, for the stale pair (cell 0, property 1). -/
theorem c6_subscriptions_accumulate_witness :
    0 ∈ Reactive.subsOf
      (Reactive.runEffect Reactive.sysSwitch 0 Reactive.switchAfterInit).subs
      (0, 1) ∧
    (Reactive.ReadOnlyBody Reactive.sysSwitch 0 →
      ∀ c k,
        Reactive.Act.read c k ∈
          Reactive.sysSwitch.body 0 Reactive.switchAfterInit.store →
        0 ∈ Reactive.subsOf
          (Reactive.runEffect Reactive.sysSwitch 0
            Reactive.switchAfterInit).subs
          (c, Reactive.canonKey Reactive.sysSwitch c k)) :=
  c6_subscriptions_accumulate Reactive.sysSwitch 0 0
    Reactive.switchAfterInit (0, 1) (by decide)

/-- C7 counterexample: after the outer effect 0 runs (creating nested
effect 1 and then reading (cell 0, property 5)), the read performed
after the nested effect completed was attributed to nobody: effect 0 is
not a subscriber of (0, 5), because the wrapper of the nested effect
reset `activeEffect` to null instead of restoring the outer
computation. -/
theorem c7_nested_effect_counterexample :
    Reactive.nestedAfterInit.runs 0 = 1 ∧
    Reactive.nestedAfterInit.runs 1 = 1 ∧
    Reactive.subsOf Reactive.nestedAfterInit.subs (0, 7) = [1] ∧
    Reactive.subsOf Reactive.nestedAfterInit.subs (0, 5) = [] := by
  decide

/-- C7 amended: the currently-running pointer holds the nested
computation during its run (each pair the nested body reads gains the
nested effect as subscriber) and is cleared to null — not restored to
the outer computation — when the nested run completes, so subsequent
reads with no active computation record no subscription at all. -/
theorem c7_active_cleared_not_restored
    (sys : Reactive.System) (e : Reactive.EffId) (bs : List Reactive.CKey)
    (s : Reactive.RState) :
    (Reactive.runInner sys e bs s).active = none ∧
    (∀ ck ∈ bs,
      e ∈ Reactive.subsOf (Reactive.runInner sys e bs s).subs
        (ck.1, Reactive.canonKey sys ck.1 ck.2)) ∧
    (∀ s2 : Reactive.RState, ∀ c k, s2.active = none →
      Reactive.getTrap sys s2 c k = s2) :=
  ⟨Reactive.runInner_active sys e bs s,
   fun ck hm => Reactive.runInner_reads_subscribed sys e bs s ck hm,
   fun s2 c k h => Reactive.getTrap_of_inactive sys s2 c k h⟩

/-- C7 witness: the amended statement applied to the nested-effect
system. -/
theorem c7_active_cleared_not_restored_witness :
    (Reactive.runInner Reactive.sysNested 1 [(0, 7)]
      Reactive.initState).active = none ∧
    1 ∈ Reactive.subsOf
      (Reactive.runInner Reactive.sysNested 1 [(0, 7)]
        Reactive.initState).subs
      (0, Reactive.canonKey Reactive.sysNested 0 7) ∧
    Reactive.getTrap Reactive.sysNested Reactive.initState 0 5 =
      Reactive.initState := by
  obtain ⟨h1, h2, h3⟩ :=
    c7_active_cleared_not_restored Reactive.sysNested 1 [(0, 7)]
      Reactive.initState
  exact ⟨h1, h2 (0, 7) (by simp), h3 Reactive.initState 0 5 rfl⟩

/-- C8 (code bug): the streamed cache write happens exactly when no
fragment failed and the client did not disconnect (aborting or failing
prevents it), but it is keyed by the page file path (`pagePath`) while
every cache lookup is keyed by the request URL, so the written entry
cannot serve a subsequent request for the same logical path: looking
the request URL up in the store right after the write still misses. -/
theorem c8_cache_write_key_mismatch :
    (Streaming.streamP21 Streaming.shellC [Streaming.fragOk] false true
        "/srv/pages/home/page.html").cacheWrite =
      some ("/srv/pages/home/page.html",
        String.join [Streaming.shellC,
          Streaming.generateReplacementContent "suspense-0" "<p>X</p>",
          Streaming.closingMarkup]) ∧
    ¬ ("/srv/pages/home/page.html" = "/home") ∧
    Cache.getCachedComponentHtml
        (Streaming.applyCacheWrite []
          (Streaming.streamP21 Streaming.shellC [Streaming.fragOk] false
            true "/srv/pages/home/page.html").cacheWrite 1000)
        "/home" 60 1000 =
      (none, false) ∧
    (Streaming.streamP21 Streaming.shellC [Streaming.fragOk] true true
        "/srv/pages/home/page.html").cacheWrite = none ∧
    (Streaming.streamP21 Streaming.shellC
        [Streaming.fragOk, Streaming.fragBad] false true
        "/srv/pages/home/page.html").cacheWrite = none := by
  exact ⟨rfl, by decide, by decide, rfl, rfl⟩

/-- C9 (code bug in src/server/router.js): the claim covers streams in
which each fragment "resolved or failed", but when a fragment fails,
router.js's catch block trips over the undefined variable `res` (the
C3 slip), the render rejects, and the closing markup is never written —
so it is not the last chunk of the response, which ends after the
successful fragments' chunks.  At the same failing input the
src/unnamed/part_021 variant (matching the readme's flow) behaves as
the claim states: the shell is the first chunk, both fragments write
exactly one chunk each, and the closing markup is written after both
have settled, as the last chunk. -/
theorem c9_closing_markup_missing_on_fragment_error :
    Streaming.streamRouter Streaming.shellC
        [Streaming.fragOk, Streaming.fragBad] false true "/q" =
      .error
        { written := [Streaming.shellC,
            Streaming.generateReplacementContent "suspense-0" "<p>X</p>"]
          htmlChunks := [Streaming.shellC,
            Streaming.generateReplacementContent "suspense-0" "<p>X</p>"]
          errorStream := false
          cacheWrite := none } ∧
    ¬ Streaming.closingMarkup ∈
        [Streaming.shellC,
         Streaming.generateReplacementContent "suspense-0" "<p>X</p>"] ∧
    (Streaming.streamP21 Streaming.shellC
        [Streaming.fragOk, Streaming.fragBad] false true "/q").written =
      (Streaming.shellC ::
          [Streaming.fragOk, Streaming.fragBad].map
            Streaming.fragChunk) ++ [Streaming.closingMarkup] ∧
    (Streaming.streamP21 Streaming.shellC
        [Streaming.fragOk, Streaming.fragBad] false true
        "/q").written.head? = some Streaming.shellC ∧
    (Streaming.streamP21 Streaming.shellC
        [Streaming.fragOk, Streaming.fragBad] false true
        "/q").written.getLast? = some Streaming.closingMarkup := by
  exact ⟨rfl, by decide, rfl, rfl, rfl⟩

/-- C10: `getRevalidateSeconds` is total and maps a number to itself, a
string that `Number()` parses to a (non-`NaN`) number to that number,
`true` to 60, `false` and `"never"` to -1, and every other value
(strings that are `NaN` other than `"never"`, `null`, `undefined`,
objects) to 0. -/
theorem c10_getRevalidateSeconds_mapping
    (n : Cache.JSNum) (s : String) (m : Cache.JSNum)
    (hs : Cache.jsStringToNumber s = some m)
    (t : String) (ht : Cache.jsStringToNumber t = none)
    (ht2 : ¬ t = "never") :
    Cache.getRevalidateSeconds (.num n) = n ∧
    Cache.getRevalidateSeconds (.str s) = m ∧
    Cache.getRevalidateSeconds (.jbool true) = .finite 60 ∧
    Cache.getRevalidateSeconds (.jbool false) = .finite (-1) ∧
    Cache.getRevalidateSeconds (.str "never") = .finite (-1) ∧
    Cache.getRevalidateSeconds (.str t) = .finite 0 ∧
    Cache.getRevalidateSeconds .jsnull = .finite 0 ∧
    Cache.getRevalidateSeconds .undef = .finite 0 ∧
    Cache.getRevalidateSeconds .obj = .finite 0 := by
  refine ⟨rfl, ?_, rfl, rfl, by decide, ?_, rfl, rfl, rfl⟩
  · simp [Cache.getRevalidateSeconds, hs]
  · simp [Cache.getRevalidateSeconds, ht, ht2]

/-- C10 witness: the mapping applied to the concrete inputs `7`,
`"+5"` (a signed numeric string, parsed to 5), `true`, `false`,
`"never"`, `"abc"`, `null`, `undefined` and an object. -/
theorem c10_getRevalidateSeconds_mapping_witness :
    Cache.getRevalidateSeconds (.num (.finite 7)) = .finite 7 ∧
    Cache.getRevalidateSeconds (.str "+5") = .finite 5 ∧
    Cache.getRevalidateSeconds (.jbool true) = .finite 60 ∧
    Cache.getRevalidateSeconds (.jbool false) = .finite (-1) ∧
    Cache.getRevalidateSeconds (.str "never") = .finite (-1) ∧
    Cache.getRevalidateSeconds (.str "abc") = .finite 0 ∧
    Cache.getRevalidateSeconds .jsnull = .finite 0 ∧
    Cache.getRevalidateSeconds .undef = .finite 0 ∧
    Cache.getRevalidateSeconds .obj = .finite 0 :=
  c10_getRevalidateSeconds_mapping (.finite 7) "+5" (.finite 5)
    (by decide) "abc" (by decide) (by decide)
